import Mathlib

/-!
Verification of the Gitus Deferred Action Authorization Subsystem
(Receipt System and Confirm Code Manager) and of the startup / web
handler code in `cmd/gitus/main.go` and the email-setting controller.

The receipt and confirm-code packages (`pkg/gitus/receipt`,
`pkg/gitus/confirm_code`, `pkg/gitus/mail`) are not present in the
source tree; definitions for them are modelled from the specification
(each such definition carries a doc comment starting with
`Modelled from the spec:`).  The startup sequence and the
`/setting/email` handlers are embedded directly from
`cmd/gitus/main.go` and the controller source.
-/

namespace Gitus

/-! ## Receipt data model (spec §3) -/

/-- Modelled from the spec: the `Receipt` row of §3 — id, command tag,
arguments, issue/expiry timestamps (minutes, as integers) and the
`consumed` flag, false at creation. -/
structure Receipt where
  id : String
  command : String
  arguments : List String
  issuedAt : Int
  expiresAt : Int
  consumed : Bool
deriving DecidableEq, Repr

/-- Modelled from the spec: the error taxonomy of §7. -/
inductive ReceiptError where
  | NotFound
  | Expired
  | AlreadyConsumed
  | CommandNotFound
  | StoreUnavailable
  | GenerationFailure
deriving DecidableEq, Repr

/-- Result of a `Redeem` call: success, or one of the §7 rejections. -/
inductive RedeemResult where
  | ok
  | fail (e : ReceiptError)
deriving DecidableEq, Repr

/-- Modelled from the spec: the Receipt Manager's state — the durable
store (a table of receipt rows) together with the log of command
dispatches performed by the Command Registry (§4.2); each dispatch is
recorded as the `(command, arguments)` pair handed to the handler. -/
structure RMState where
  store : List Receipt
  dispatches : List (String × List String)
deriving DecidableEq, Repr

/-- Modelled from the spec: `get-by-id` of the Receipt Store (§6). -/
def findReceipt (store : List Receipt) (id : String) : Option Receipt :=
  store.find? (fun r => r.id = id)

/-- Modelled from the spec: the store's atomic conditional consume —
"set consumed = true where id = ? and consumed = false" — returning
whether the caller won the race together with the updated table (§4.3). -/
def consumeReceipt (store : List Receipt) (id : String) : Bool × List Receipt :=
  (store.any (fun r => r.id = id && !r.consumed),
   store.map (fun r => if r.id = id && !r.consumed then { r with consumed := true } else r))

/-- Modelled from the spec: `IssueReceipt(lifetimeMinutes, command,
arguments)` of §4.3 — rejects non-positive lifetimes, requires a fresh
id from the Token Generator (a collision is detected by the store and
reported as a generation failure), writes a new unconsumed row with
`expiresAt = issuedAt + lifetimeMinutes`.  The generated id and the
current time are passed in explicitly. -/
def IssueReceipt (s : RMState) (now : Int) (newId : String)
    (lifetimeMinutes : Int) (command : String) (arguments : List String) :
    Except ReceiptError (String × RMState) :=
  if lifetimeMinutes ≤ 0 then .error .GenerationFailure
  else if (findReceipt s.store newId).isSome then .error .GenerationFailure
  else .ok (newId,
    { s with store := s.store ++
        [{ id := newId, command := command, arguments := arguments,
           issuedAt := now, expiresAt := now + lifetimeMinutes, consumed := false }] })

/-- Modelled from the spec: `Redeem(id)` of §4.3 — fetch by id;
`NotFound` if absent, `Expired` if `now > expiresAt`, `AlreadyConsumed`
if `consumed == true`; otherwise perform the atomic conditional
consume, and only when it is won dispatch the registered command
(recorded in the dispatch log); a lost race is `AlreadyConsumed`,
an unregistered tag after a won consume is `CommandNotFound` (§4.2).
The Command Registry is modelled as the list of registered tags. -/
def Redeem (registry : List String) (s : RMState) (now : Int) (id : String) :
    RedeemResult × RMState :=
  match findReceipt s.store id with
  | none => (.fail .NotFound, s)
  | some r =>
    if now > r.expiresAt then (.fail .Expired, s)
    else if r.consumed then (.fail .AlreadyConsumed, s)
    else
      match consumeReceipt s.store id with
      | (won, store2) =>
        if won then
          if registry.contains r.command then
            (.ok, { store := store2,
                    dispatches := s.dispatches ++ [(r.command, r.arguments)] })
          else (.fail .CommandNotFound, { s with store := store2 })
        else (.fail .AlreadyConsumed, s)

/-- Modelled from the spec: `Purge()` of §4.3 — deletes the rows with
`expiresAt < now`, consumed or not. -/
def Purge (store : List Receipt) (now : Int) : List Receipt :=
  store.filter (fun r => !(r.expiresAt < now))

/-- Apply a sequence of `Redeem` calls on the same id at the given call
times, collecting the results. -/
def redeemMany (registry : List String) (s : RMState) (id : String) :
    List Int → List RedeemResult × RMState
  | [] => ([], s)
  | now :: rest =>
    match Redeem registry s now id with
    | (res, s') =>
      match redeemMany registry s' id rest with
      | (results, s'') => (res :: results, s'')

/-! ## Micro-step interleaving model of concurrent redemption (spec §4.3, §5)

A `Redeem` call consists of a fetch (a read of the store) followed by
the store's atomic conditional consume; per §4.3 the dispatch happens
immediately after a won consume, and since the dispatch log is not read
by any redemption step, it is recorded in the same atomic step as the
winning consume.  N simultaneous calls are N threads whose atomic
steps are interleaved by an arbitrary schedule. -/

/-- Modelled from the spec: the control state of a single in-flight
`Redeem(id)` call — before the fetch, after a fetch that saw a live
unconsumed row, or finished with a result. -/
inductive RedeemPhase where
  | start
  | fetched (r : Receipt)
  | done (res : RedeemResult)
deriving DecidableEq, Repr

/-- Modelled from the spec: one atomic step of an in-flight `Redeem(id)`
call.  The `start` step performs the fetch and the §4.3 rejection
checks; the `fetched` step performs the atomic conditional consume and,
when won, the dispatch. -/
def redeemStep (registry : List String) (now : Int) (id : String)
    (g : RMState) (ph : RedeemPhase) : RMState × RedeemPhase :=
  match ph with
  | .start =>
    match findReceipt g.store id with
    | none => (g, .done (.fail .NotFound))
    | some r =>
      if now > r.expiresAt then (g, .done (.fail .Expired))
      else if r.consumed then (g, .done (.fail .AlreadyConsumed))
      else (g, .fetched r)
  | .fetched r =>
    match consumeReceipt g.store id with
    | (won, store2) =>
      if won then
        if registry.contains r.command then
          ({ store := store2,
             dispatches := g.dispatches ++ [(r.command, r.arguments)] },
           .done .ok)
        else ({ g with store := store2 }, .done (.fail .CommandNotFound))
      else (g, .done (.fail .AlreadyConsumed))
  | .done res => (g, .done res)

/-- Run one scheduled step: thread `t` of the pool takes its next
atomic step (out-of-range indices and finished threads idle). -/
def runStep (registry : List String) (now : Int) (id : String)
    (s : RMState × List RedeemPhase) (t : Nat) : RMState × List RedeemPhase :=
  match s.2.get? t with
  | none => s
  | some ph =>
    match redeemStep registry now id s.1 ph with
    | (g', ph') => (g', s.2.set t ph')

/-- Run a whole schedule (a list of thread indices) over the pool. -/
def runSchedule (registry : List String) (now : Int) (id : String)
    (s : RMState × List RedeemPhase) (sched : List Nat) : RMState × List RedeemPhase :=
  sched.foldl (runStep registry now id) s

/-! ## Confirm Code Manager (spec §3, §4.4) -/

/-- Modelled from the spec: a live confirm-code entry — the generated
secret and its expiry stamp (§3). -/
structure CodeEntry where
  code : String
  expiresAt : Int
deriving DecidableEq, Repr

/-- The Confirm Code Store: a table of live entries keyed by
`(subject, purpose)`. -/
abbrev CCStore := List ((String × String) × CodeEntry)

/-- Modelled from the spec: lookup of the live entry for a
`(subject, purpose)` key in the Confirm Code Store. -/
def ccLookup (st : CCStore) (k : String × String) : Option CodeEntry :=
  (List.find? (fun e => e.1 = k) st).map (fun e => e.2)

/-- Modelled from the spec: removal of the entry for a key from the
Confirm Code Store. -/
def ccErase (st : CCStore) (k : String × String) : CCStore :=
  List.filter (fun e => !(e.1 = k : Bool)) st

/-- Modelled from the spec: `IssueCode(subject, purpose)` of §4.4 —
generates a short secret (the generated value is passed in), overwrites
any existing live code for the pair, and stamps expiry from the
configured default timeout. -/
def IssueCode (st : CCStore) (now defaultTimeoutMinutes : Int)
    (subject purpose generated : String) : String × CCStore :=
  (generated,
   ((subject, purpose), { code := generated, expiresAt := now + defaultTimeoutMinutes }) ::
     ccErase st (subject, purpose))

/-- Modelled from the spec: `VerifyCode(subject, purpose, candidate)` of
§4.4 — absent entry: false (a normal outcome); expired entry: false,
the entry being swept lazily at lookup time (§3); on match the entry is
deleted (one-shot) and true is returned; on mismatch the entry is
retained and false is returned. -/
def VerifyCode (st : CCStore) (now : Int)
    (subject purpose candidate : String) : Bool × CCStore :=
  match ccLookup st (subject, purpose) with
  | none => (false, st)
  | some e =>
    if now > e.expiresAt then (false, ccErase st (subject, purpose))
    else if candidate = e.code then (true, ccErase st (subject, purpose))
    else (false, st)

/-! ## Startup sequence of `cmd/gitus/main.go`

Embedded from the source: the mode flags computed from `mainCall`, the
per-subsystem initializations guarded by `OperationMode == "normal"`,
and which failures call `os.Exit(1)`.  The initializers themselves live
outside the source tree, so each one's outcome (an error message, or
success) is an input. -/

def OP_MODE_PLAIN : String := "plain"
def OP_MODE_SIMPLE : String := "simple"
def OP_MODE_NORMAL : String := "normal"

/-- An opaque mailer handle (the `mail` package is not in the source
tree; only its presence or absence in the router context matters). -/
structure Mailer where
  unit : Unit
deriving DecidableEq, Repr

/-- Modelled from the spec: `mail.InitializeMailer`.  The §9 design
note and the TODO comment at `cmd/gitus/main.go:154` ("somehow if
err != nil `ml` still seems to be non-nil. fix this.") record that the
constructor returns a non-nil mailer value even when it also returns an
error.  The underlying failure (if any) is passed in. -/
def InitializeMailer (failure : Option String) : Option Mailer × Option String :=
  (some { unit := () }, failure)

/-- The requirement stated by the spec's §9 design note: a fallible
constructor must return an absent result whenever it returns an error. -/
def cleanOnError (ctor : Option String → Option Mailer × Option String) : Prop :=
  ∀ failure, ((ctor failure).2).isSome → (ctor failure).1 = none

/-- Outcomes of the external initializers called by `main`
(`none` = success, `some msg` = error) plus the ready check. -/
structure InitOutcomes where
  dbInit : Option String
  ssInit : Option String
  keyctxInit : Option String
  rsInit : Option String
  mailerInit : Option String
  ccmInit : Option String
  readyCheck : Bool
  gitUserLookup : Option String
deriving DecidableEq, Repr

/-- Which failure made `main` call `os.Exit(1)` (every such exit in the
embedded region uses exit code 1). -/
inductive ExitStage where
  | db
  | session
  | keyctx
  | receipt
  | readyCheck
  | gitUser
deriving DecidableEq, Repr

/-- The slice of `routes.RouterContext` populated by `main` that the
claims inspect. -/
structure ServerContext where
  mailer : Option Mailer
  hasReceiptSystem : Bool
  hasConfirmCodeManager : Bool
deriving DecidableEq, Repr

/-- How the embedded region of `main` ends: a fatal `os.Exit(1)`, the
dispatch of a CLI sub-command, or the HTTP server starting with the
populated context. -/
inductive StartupOutcome where
  | exited (stage : ExitStage)
  | ranCommand
  | started (ctx : ServerContext)
deriving DecidableEq, Repr

/-- Embedded from `cmd/gitus/main.go` (lines 71-192): flag computation,
the normal-mode initialization chain with its fatal failures, the
mailer's `ml = nil` compensation on error, the confirm-code manager
being stored even when its constructor errors, the ready check, and the
Git-user lookup; then either CLI command dispatch or server start. -/
def mainStartup (mainCall : List String) (opMode : String) (o : InitOutcomes) :
    StartupOutcome :=
  let containsCommand := decide (0 < mainCall.length)
  let isWebServer := !containsCommand
  let isSsh := containsCommand && decide (mainCall.head? = some "ssh")
  let isWebHooks := containsCommand && decide (mainCall.head? = some "web-hooks")
  let isUpdateTrigger := containsCommand && decide (mainCall.head? = some "update-trigger")
  let isResetAdmin := containsCommand && decide (mainCall.head? = some "reset-admin")
  let dbifNeeded := isWebServer || (containsCommand && (isSsh || isWebHooks || isUpdateTrigger || isResetAdmin))
  let ssifNeeded := isWebServer
  let keyctxNeeded := isWebServer || (containsCommand && isSsh)
  let rsifNeeded := isWebServer
  let mailerNeeded := isWebServer
  let ccmNeeded := isWebServer
  if opMode = OP_MODE_NORMAL then
    if dbifNeeded && o.dbInit.isSome then .exited .db
    else if ssifNeeded && o.ssInit.isSome then .exited .session
    else if keyctxNeeded && o.keyctxInit.isSome then .exited .keyctx
    else if rsifNeeded && o.rsInit.isSome then .exited .receipt
    else if !o.readyCheck then .exited .readyCheck
    else if o.gitUserLookup.isSome then .exited .gitUser
    else if containsCommand then .ranCommand
    else .started {
      mailer :=
        if mailerNeeded then
          match InitializeMailer o.mailerInit with
          | (ml, err) => if err.isSome then none else ml
        else none,
      hasReceiptSystem := rsifNeeded,
      hasConfirmCodeManager := ccmNeeded }
  else
    if o.gitUserLookup.isSome then .exited .gitUser
    else if containsCommand then .ranCommand
    else .started {
      mailer := none,
      hasReceiptSystem := false,
      hasConfirmCodeManager := false }

/-! ## The `/setting/email` controller (embedded from the source)

Each handler is embedded as a function from the request data and the
outcomes of its external calls (database, receipt system) to the list
of observable actions it performs, in order.  Debug `fmt.Println`
statements are omitted (they only write to the process console). -/

/-- Modelled from the spec: the command tag `receipt.VERIFY_EMAIL` of
the receipt package (not in the source tree); its concrete value is
irrelevant, only its identity. -/
def VERIFY_EMAIL : String := "VERIFY_EMAIL"

/-- An observable action of a `/setting/email` handler. -/
inductive Effect where
  | reportNormalError (msg : String)
  | reportInternalError (msg : String)
  | reportRedirect (target : String) (timeout : Int) (title msg : String)
  | issueReceipt (lifetimeMinutes : Int) (command : List String)
  | goSendPlainTextMail (mailer : Option Mailer) (dest title body : String)
  | dbCheckEmailVerified (user email : String)
  | dbGetUserByName (user : String)
  | dbUpdateUserInfo (user email : String)
  | dbDeleteRegisteredEmail (user email : String)
deriving DecidableEq, Repr

/-- The verification-mail body built by the handler (the Go
`fmt.Sprintf` over the raw string literal, verbatim). -/
def verifyMailBody (username depotName properHost rid : String) : String :=
  "\nThis email is registered as being owned by user " ++ username ++ " on "
    ++ depotName
    ++ ".\n\nIf this isn\x27t you, you don\x27t need to do anything about it, as the verification request expires after 24 hours, upon which the verification will not succeed and the email won\x27t be labelled as a valid email of that user; but if this is you, please copy & open the following link to verify this email:\n\n    "
    ++ properHost ++ "/receipt?id=" ++ rid
    ++ "\n\nWe wish you all the best in your future endeavours.\n\n"
    ++ depotName ++ "\n"

/-- Embedded from the controller source: the `GET /setting/email/verify`
handler.  Inputs: the context's mailer, depot name and proper HTTP host
name, the logged-in user name, whether `ParseForm` succeeded, the
`email` query parameter, and the outcome of the
`ReceiptSystem.IssueReceipt(24*60, command)` call (error, or the
returned receipt id). -/
def settingEmailVerifyHandler (mailer : Option Mailer)
    (depotName properHost username : String)
    (parseFormOk : Bool) (email : String)
    (issueRes : Except String String) : List Effect :=
  if !parseFormOk then [.reportNormalError "Invalid request"]
  else
    let command := [VERIFY_EMAIL, username, email]
    .issueReceipt (24 * 60) command ::
      match issueRes with
      | .error e =>
        [.reportInternalError ("Failed to issue receipt: " ++ e ++ "\n")]
      | .ok rid =>
        let title := "Verification of email on " ++ depotName
        let body := verifyMailBody username depotName properHost rid
        [.goSendPlainTextMail mailer email title body,
         .reportRedirect "/setting/email" 3 "Verification Email Sent"
           "Please follow the instruction in the email to verify this email."]

/-- Embedded from the controller source: the `GET /setting/email/primary`
handler.  Inputs: the logged-in user name, the `email` query parameter,
and the outcomes of the database calls it makes
(`CheckIfEmailVerified`, `GetUserByName`, `UpdateUserInfo`). -/
def settingEmailPrimaryHandler (username email : String)
    (verifiedRes : Except String Bool)
    (getUserRes : Option String) (updateRes : Option String) : List Effect :=
  if email.length ≤ 0 then
    [.reportRedirect "/setting/email" 3 "Invalid Request"
       "This email is not associated with your user account."]
  else
    .dbCheckEmailVerified username email ::
      match verifiedRes with
      | .error e =>
        [.reportInternalError
           ("Failed while checking email\x27s verification status: " ++ e ++ "\n")]
      | .ok b =>
        if !b then
          [.reportRedirect "/setting/email" 3 "Email Not Verified"
             "The specified email has been not been verified. You can only use verified email addresses as your primary email address."]
        else
          .dbGetUserByName username ::
            match getUserRes with
            | some e => [.reportInternalError ("Failed while retrieving user: " ++ e)]
            | none =>
              .dbUpdateUserInfo username email ::
                match updateRes with
                | some e => [.reportInternalError ("Failed while saving user info: " ++ e)]
                | none =>
                  [.reportRedirect "/setting/email" 3 "Settings Saved"
                     "The specified email is saved as the primary email address."]

/-- Embedded from the controller source: the `GET /setting/email/delete`
handler.  Inputs: the logged-in user name, whether `ParseForm`
succeeded, the `email` query parameter, and the outcome of the
`DeleteRegisteredEmail` database call. -/
def settingEmailDeleteHandler (username : String)
    (parseFormOk : Bool) (email : String)
    (deleteRes : Option String) : List Effect :=
  if !parseFormOk then [.reportNormalError "Invalid request"]
  else if email.length ≤ 0 then
    [.reportRedirect "/setting/email" 3 "Invalid Request"
       "This email is not associated with your user account."]
  else
    .dbDeleteRegisteredEmail username email ::
      match deleteRes with
      | some e =>
        [.reportInternalError ("Failed while deleting registered email: " ++ e ++ "\n")]
      | none =>
        [.reportRedirect "/setting/email" 3 "Email Deleted"
           "The specified email has been deleted from your user account."]

end Gitus

namespace Gitus

/-! ## Theorems -/

/-- C6: `Purge` deletes exactly the stored receipts with
`expiresAt < now` (whether consumed or not) and never removes a receipt
with `expiresAt ≥ now`: a receipt row survives the purge iff it was
stored and its expiry is not in the past, with multiplicities
preserved. -/
theorem purge_removes_exactly_expired (store : List Receipt) (now : Int) (r : Receipt) :
    (r ∈ Purge store now ↔ r ∈ store ∧ ¬ r.expiresAt < now) ∧
    (Purge store now).count r = if r.expiresAt < now then 0 else store.count r := by
  constructor
  · simp [Purge, List.mem_filter]
  · by_cases h : r.expiresAt < now
    · have hmem : r ∉ Purge store now := by simp [Purge, List.mem_filter, h]
      simp [h, List.count_eq_zero_of_not_mem hmem]
    · rw [Purge, List.count_filter (by simp [h])]
      simp [h]

/-- C3: with a stored receipt whose `expiresAt` is in the past at call
time, `Redeem` returns `Expired` regardless of the consumed flag and
leaves the state (in particular the dispatch log) unchanged, so the
command handler is never dispatched; `Redeem` on an id with no stored
receipt returns `NotFound`, also without dispatching. -/
theorem redeem_expired_and_not_found (registry : List String) (s : RMState)
    (now : Int) (id : String) :
    (∀ r, findReceipt s.store id = some r → now > r.expiresAt →
       Redeem registry s now id = (.fail .Expired, s)) ∧
    (findReceipt s.store id = none →
       Redeem registry s now id = (.fail .NotFound, s)) := by
  constructor
  · intro r hfind hexp
    simp [Redeem, hfind, hexp]
  · intro hfind
    simp [Redeem, hfind]

/-- Witness for C3 at concrete inputs: an expired consumed receipt and
an expired unconsumed receipt both redeem to `Expired` with the state
intact, and an unknown id redeems to `NotFound`. -/
theorem redeem_expired_and_not_found_witness :
    (Redeem ["c"] (RMState.mk [Receipt.mk "a" "c" [] 0 5 true] []) 6 "a"
      = (.fail .Expired, RMState.mk [Receipt.mk "a" "c" [] 0 5 true] [])) ∧
    (Redeem ["c"] (RMState.mk [Receipt.mk "a" "c" [] 0 5 false] []) 6 "a"
      = (.fail .Expired, RMState.mk [Receipt.mk "a" "c" [] 0 5 false] [])) ∧
    (Redeem ["c"] (RMState.mk [] []) 6 "b"
      = (.fail .NotFound, RMState.mk [] [])) := by
  refine ⟨?_, ?_, ?_⟩
  · exact (redeem_expired_and_not_found ["c"] _ 6 "a").1
      (Receipt.mk "a" "c" [] 0 5 true) (by decide) (by decide)
  · exact (redeem_expired_and_not_found ["c"] _ 6 "a").1
      (Receipt.mk "a" "c" [] 0 5 false) (by decide) (by decide)
  · exact (redeem_expired_and_not_found ["c"] _ 6 "b").2 (by decide)

/-- C10: whenever its form parses, the `GET /setting/email/verify`
handler immediately issues a receipt with command
`[VERIFY_EMAIL, username, email]` and the fixed lifetime of 1440
minutes, for every value of the `email` query parameter (empty or not,
with no database consultation before issuance) — whereas the primary
and delete endpoints reject an empty email outright, performing no
other action. -/
theorem verify_issues_unconditionally_primary_delete_reject_empty
    (mailer : Option Mailer) (depotName properHost username email : String)
    (issueRes : Except String String) (verifiedRes : Except String Bool)
    (getUserRes updateRes deleteRes : Option String) :
    (∃ rest, settingEmailVerifyHandler mailer depotName properHost username true email issueRes
       = .issueReceipt 1440 [VERIFY_EMAIL, username, email] :: rest) ∧
    settingEmailPrimaryHandler username "" verifiedRes getUserRes updateRes
      = [.reportRedirect "/setting/email" 3 "Invalid Request"
           "This email is not associated with your user account."] ∧
    settingEmailDeleteHandler username true "" deleteRes
      = [.reportRedirect "/setting/email" 3 "Invalid Request"
           "This email is not associated with your user account."] := by
  refine ⟨⟨?_, ?_⟩, ?_, ?_⟩
  · exact match issueRes with
      | .error e => [.reportInternalError ("Failed to issue receipt: " ++ e ++ "\n")]
      | .ok rid =>
        [.goSendPlainTextMail mailer email ("Verification of email on " ++ depotName)
           (verifyMailBody username depotName properHost rid),
         .reportRedirect "/setting/email" 3 "Verification Email Sent"
           "Please follow the instruction in the email to verify this email."]
  · cases issueRes <;> simp [settingEmailVerifyHandler]
  · simp [settingEmailPrimaryHandler]
  · simp [settingEmailDeleteHandler]

/-- C7: with the web server starting (`mainCall = []`) in normal
operation mode, a failing receipt-system initialization makes startup
fatal: `main` never reaches command dispatch or the HTTP server, and
when the earlier initializations succeed it exits (code 1, with the
error reported) at the receipt-system stage. -/
theorem receipt_init_failure_is_fatal (o : InitOutcomes) (e : String)
    (hrs : o.rsInit = some e) :
    (∀ ctx, mainStartup [] OP_MODE_NORMAL o ≠ .started ctx) ∧
    mainStartup [] OP_MODE_NORMAL o ≠ .ranCommand ∧
    (o.dbInit = none → o.ssInit = none → o.keyctxInit = none →
       mainStartup [] OP_MODE_NORMAL o = .exited .receipt) := by
  obtain ⟨db, ss, kc, rs, ml, ccm, rdy, gu⟩ := o
  simp only at hrs
  subst hrs
  cases db <;> cases ss <;> cases kc <;>
    simp [mainStartup]

/-- Witness for C7: a concrete startup where only the receipt system
fails to initialize exits at the receipt stage and never serves. -/
theorem receipt_init_failure_is_fatal_witness :
    (∀ ctx, mainStartup [] OP_MODE_NORMAL
        (InitOutcomes.mk none none none (some "no table") none none true none)
      ≠ .started ctx) ∧
    mainStartup [] OP_MODE_NORMAL
        (InitOutcomes.mk none none none (some "no table") none none true none)
      = .exited .receipt := by
  have h := receipt_init_failure_is_fatal
    (InitOutcomes.mk none none none (some "no table") none none true none)
    "no table" rfl
  exact ⟨h.1, h.2.2 rfl rfl rfl⟩

/-- C8 (refuted by the code): the mailer constructor violates the
requirement that a fallible constructor return an absent result
alongside an error — per the TODO at `cmd/gitus/main.go:154`, it
returns a non-nil mailer value together with a non-nil error. -/
theorem mailer_constructor_not_clean_on_error :
    ¬ cleanOnError InitializeMailer ∧
    ((InitializeMailer (some "connection refused")).1.isSome = true ∧
     (InitializeMailer (some "connection refused")).2.isSome = true) := by
  refine ⟨?_, by decide, by decide⟩
  intro h
  have := h (some "connection refused") (by decide)
  simp [InitializeMailer] at this

/-- C9: when mailer initialization fails at startup (all other
initializations succeeding), the web server still starts in normal mode
with the context's mailer set to `nil`; a `GET /setting/email/verify`
request whose form parses then issues a receipt and calls
`SendPlainTextMail` on that nil mailer in a background goroutine. -/
theorem nil_mailer_still_used_by_verify (o : InitOutcomes)
    (username email depotName properHost rid : String)
    (hdb : o.dbInit = none) (hss : o.ssInit = none) (hkc : o.keyctxInit = none)
    (hrs : o.rsInit = none) (hml : o.mailerInit.isSome = true)
    (hrdy : o.readyCheck = true) (hgu : o.gitUserLookup = none) :
    ∃ ctx, mainStartup [] OP_MODE_NORMAL o = .started ctx ∧
      ctx.mailer = none ∧
      (∃ rest,
        settingEmailVerifyHandler ctx.mailer depotName properHost username true email (.ok rid)
          = .issueReceipt 1440 [VERIFY_EMAIL, username, email] :: rest) ∧
      .goSendPlainTextMail ctx.mailer email
          ("Verification of email on " ++ depotName)
          (verifyMailBody username depotName properHost rid)
        ∈ settingEmailVerifyHandler ctx.mailer depotName properHost username true email (.ok rid) := by
  obtain ⟨db, ss, kc, rs, ml, ccm, rdy, gu⟩ := o
  simp only at hdb hss hkc hrs hml hrdy hgu
  subst hdb; subst hss; subst hkc; subst hrs; subst hrdy; subst hgu
  refine ⟨ServerContext.mk none true true, ?_, rfl, ?_, ?_⟩
  · cases ml with
    | none => simp at hml
    | some m => simp [mainStartup, InitializeMailer]
  · refine ⟨[.goSendPlainTextMail none email ("Verification of email on " ++ depotName)
        (verifyMailBody username depotName properHost rid),
      .reportRedirect "/setting/email" 3 "Verification Email Sent"
        "Please follow the instruction in the email to verify this email."], ?_⟩
    simp [settingEmailVerifyHandler]
  · simp [settingEmailVerifyHandler]

/-- Witness for C9: a concrete startup with only the mailer failing
serves with a nil mailer, and the verify handler for user `"alice"`
and email `"a@b.c"` both issues the receipt and mails through the nil
mailer. -/
theorem nil_mailer_still_used_by_verify_witness :
    ∃ ctx, mainStartup [] OP_MODE_NORMAL
        (InitOutcomes.mk none none none none (some "smtp down") none true none)
      = .started ctx ∧
      ctx.mailer = none ∧
      (∃ rest,
        settingEmailVerifyHandler ctx.mailer "Gitus" "http://g.example" "alice" true "a@b.c" (.ok "rid1")
          = .issueReceipt 1440 [VERIFY_EMAIL, "alice", "a@b.c"] :: rest) ∧
      .goSendPlainTextMail ctx.mailer "a@b.c"
          ("Verification of email on " ++ "Gitus")
          (verifyMailBody "alice" "Gitus" "http://g.example" "rid1")
        ∈ settingEmailVerifyHandler ctx.mailer "Gitus" "http://g.example" "alice" true "a@b.c" (.ok "rid1") :=
  nil_mailer_still_used_by_verify
    (InitOutcomes.mk none none none none (some "smtp down") none true none)
    "alice" "a@b.c" "Gitus" "http://g.example" "rid1"
    rfl rfl rfl rfl rfl rfl rfl

/-! ### Confirm Code Manager theorems -/

/-- After an issuance, the live entry for the pair is the freshly
stamped one. -/
theorem ccLookup_issue (st : CCStore) (now tmo : Int) (s p g : String) :
    ccLookup (IssueCode st now tmo s p g).2 (s, p) = some (CodeEntry.mk g (now + tmo)) := by
  simp [IssueCode, ccLookup, List.find?_cons_of_pos]

/-- Erasing a key leaves no live entry for it. -/
theorem ccLookup_erase (st : CCStore) (k : String × String) :
    ccLookup (ccErase st k) k = none := by
  rw [ccLookup, List.find?_eq_none.mpr, Option.map_none']
  intro a ha
  simp only [ccErase, List.mem_filter] at ha
  simpa using ha.2

/-- Erasing a key removes every row of the table with that key. -/
theorem ccErase_countP (st : CCStore) (k : String × String) :
    List.countP (fun e => decide (e.1 = k)) (ccErase st k) = 0 := by
  rw [List.countP_eq_zero]
  intro a ha
  simp only [ccErase, List.mem_filter] at ha
  simpa using ha.2

/-- C4: at most one live code per `(subject, purpose)`: issuing a
second code for a pair overwrites the first, so the stored entry is the
second one, exactly one row for the pair remains, and verifying the
first code afterwards (it being distinct from the second) fails at any
time. -/
theorem second_issue_invalidates_first_code (st : CCStore)
    (now₁ tmo₁ now₂ tmo₂ now₃ : Int) (s p g₁ g₂ : String) (hne : g₁ ≠ g₂) :
    ccLookup (IssueCode (IssueCode st now₁ tmo₁ s p g₁).2 now₂ tmo₂ s p g₂).2 (s, p)
      = some (CodeEntry.mk g₂ (now₂ + tmo₂)) ∧
    (VerifyCode (IssueCode (IssueCode st now₁ tmo₁ s p g₁).2 now₂ tmo₂ s p g₂).2
        now₃ s p g₁).1 = false ∧
    List.countP (fun e => decide (e.1 = (s, p)))
        (IssueCode (IssueCode st now₁ tmo₁ s p g₁).2 now₂ tmo₂ s p g₂).2 = 1 := by
  refine ⟨ccLookup_issue _ now₂ tmo₂ s p g₂, ?_, ?_⟩
  · rw [VerifyCode, ccLookup_issue]
    by_cases h : now₃ > now₂ + tmo₂ <;> simp [h, hne]
  · rw [IssueCode, List.countP_cons]
    simp [ccErase_countP]

/-- Witness for C4: issue `"111111"` then `"222222"` for
`("bob", "login-2fa")`; the table holds only the second, and the first
no longer verifies. -/
theorem second_issue_invalidates_first_code_witness :
    ccLookup (IssueCode (IssueCode [] 0 5 "bob" "login-2fa" "111111").2
        1 5 "bob" "login-2fa" "222222").2 ("bob", "login-2fa")
      = some (CodeEntry.mk "222222" 6) ∧
    (VerifyCode (IssueCode (IssueCode [] 0 5 "bob" "login-2fa" "111111").2
        1 5 "bob" "login-2fa" "222222").2 2 "bob" "login-2fa" "111111").1 = false ∧
    List.countP (fun e => decide (e.1 = ("bob", "login-2fa")))
        (IssueCode (IssueCode [] 0 5 "bob" "login-2fa" "111111").2
          1 5 "bob" "login-2fa" "222222").2 = 1 :=
  second_issue_invalidates_first_code [] 0 5 1 5 2 "bob" "login-2fa"
    "111111" "222222" (by decide)

/-- C5: `VerifyCode` returns false when no live entry exists or the
entry is expired; with a live entry and a matching candidate it deletes
the entry and returns true, so the same code fails on a second call;
with a mismatching candidate it retains the store unchanged and
returns false. -/
theorem verify_code_one_shot (st : CCStore) (now now' : Int) (s p cand : String) :
    (ccLookup st (s, p) = none → VerifyCode st now s p cand = (false, st)) ∧
    (∀ e, ccLookup st (s, p) = some e → now > e.expiresAt →
       (VerifyCode st now s p cand).1 = false) ∧
    (∀ e, ccLookup st (s, p) = some e → ¬ now > e.expiresAt → cand = e.code →
       VerifyCode st now s p cand = (true, ccErase st (s, p)) ∧
       (VerifyCode (ccErase st (s, p)) now' s p cand).1 = false) ∧
    (∀ e, ccLookup st (s, p) = some e → ¬ now > e.expiresAt → cand ≠ e.code →
       VerifyCode st now s p cand = (false, st)) := by
  refine ⟨?_, ?_, ?_, ?_⟩
  · intro h
    simp [VerifyCode, h]
  · intro e h hexp
    simp [VerifyCode, h, hexp]
  · intro e h hexp hmatch
    refine ⟨by simp [VerifyCode, h, hexp, hmatch], ?_⟩
    simp [VerifyCode, ccLookup_erase]
  · intro e h hexp hmiss
    simp [VerifyCode, h, hexp, hmiss]

/-- Witness for C5, following the §8 scenario: with a live code
`"7K2P9Q"` for `("bob", "login-2fa")`, a wrong candidate fails with the
entry retained, the right candidate succeeds deleting the entry, and
repeating the right candidate then fails; an absent pair also fails. -/
theorem verify_code_one_shot_witness :
    (VerifyCode [(("bob", "login-2fa"), CodeEntry.mk "7K2P9Q" 5)] 1
        "bob" "login-2fa" "000000"
      = (false, [(("bob", "login-2fa"), CodeEntry.mk "7K2P9Q" 5)])) ∧
    (VerifyCode [(("bob", "login-2fa"), CodeEntry.mk "7K2P9Q" 5)] 1
        "bob" "login-2fa" "7K2P9Q"
      = (true, ccErase [(("bob", "login-2fa"), CodeEntry.mk "7K2P9Q" 5)]
          ("bob", "login-2fa"))) ∧
    (VerifyCode (ccErase [(("bob", "login-2fa"), CodeEntry.mk "7K2P9Q" 5)]
          ("bob", "login-2fa")) 1 "bob" "login-2fa" "7K2P9Q").1 = false ∧
    (VerifyCode [] 1 "alice" "login-2fa" "7K2P9Q" = (false, [])) := by
  have h := verify_code_one_shot
    [(("bob", "login-2fa"), CodeEntry.mk "7K2P9Q" 5)] 1 1 "bob" "login-2fa"
  have habs := verify_code_one_shot [] 1 1 "alice" "login-2fa" "7K2P9Q"
  refine ⟨?_, ?_, ?_, ?_⟩
  · exact (h "000000").2.2.2 (CodeEntry.mk "7K2P9Q" 5) (by decide) (by decide) (by decide)
  · exact ((h "7K2P9Q").2.2.1 (CodeEntry.mk "7K2P9Q" 5) (by decide) (by decide) (by decide)).1
  · exact ((h "7K2P9Q").2.2.1 (CodeEntry.mk "7K2P9Q" 5) (by decide) (by decide) (by decide)).2
  · exact habs.1 (by decide)

/-! ### Receipt Manager theorems -/

/-- A fresh id is found in the store exactly at its newly appended row. -/
theorem findReceipt_append_single (store : List Receipt) (id : String) (r : Receipt)
    (hfresh : findReceipt store id = none) (hr : r.id = id) :
    findReceipt (store ++ [r]) id = some r := by
  unfold findReceipt at hfresh ⊢
  simp [List.find?_append, hfresh, List.find?_cons_of_pos, hr]

/-- If lookup of an id fails, no row of the store carries that id. -/
theorem fresh_of_findReceipt_none (store : List Receipt) (id : String)
    (hfresh : findReceipt store id = none) :
    ∀ r ∈ store, r.id ≠ id := by
  intro r hr
  have := List.find?_eq_none.mp hfresh r hr
  simpa using this

/-- The conditional consume finds no candidate row among rows of other
ids. -/
theorem any_fresh_false (store : List Receipt) (id : String)
    (h : ∀ r ∈ store, r.id ≠ id) :
    store.any (fun r => r.id = id && !r.consumed) = false := by
  rw [List.any_eq_false]
  intro r hr
  simp [h r hr]

/-- The conditional consume leaves rows of other ids untouched. -/
theorem consume_fresh_map (store : List Receipt) (id : String)
    (h : ∀ r ∈ store, r.id ≠ id) :
    store.map (fun r => if r.id = id && !r.consumed then { r with consumed := true } else r)
      = store := by
  have hcongr : ∀ r ∈ store,
      (if r.id = id && !r.consumed then { r with consumed := true } else r) = r := by
    intro r hr
    simp [h r hr]
  rw [List.map_congr_left hcongr]
  exact List.map_id' store

/-- Once the stored receipt for an id is consumed, every `Redeem` at an
unexpired time returns `AlreadyConsumed` and leaves the state alone. -/
theorem redeem_consumed_unchanged (registry : List String) (g : RMState)
    (now : Int) (id : String) (r : Receipt)
    (hfind : findReceipt g.store id = some r) (hcons : r.consumed = true)
    (hnow : ¬ now > r.expiresAt) :
    Redeem registry g now id = (.fail .AlreadyConsumed, g) := by
  simp [Redeem, hfind, hnow, hcons]

/-- Once the stored receipt for an id is consumed, any whole sequence of
further `Redeem` calls at unexpired times returns `AlreadyConsumed`
throughout and leaves the state alone. -/
theorem redeemMany_consumed (registry : List String) (g : RMState) (id : String)
    (r : Receipt) (ts : List Int)
    (hfind : findReceipt g.store id = some r) (hcons : r.consumed = true)
    (hts : ∀ t ∈ ts, t ≤ r.expiresAt) :
    redeemMany registry g id ts
      = (ts.map (fun _ => RedeemResult.fail .AlreadyConsumed), g) := by
  revert hts
  induction ts with
  | nil => intro _; rfl
  | cons t ts ih =>
    intro hts
    have h1 : ¬ t > r.expiresAt := by
      have := hts t (by simp)
      omega
    have hred : Redeem registry g t id = (.fail .AlreadyConsumed, g) :=
      redeem_consumed_unchanged registry g t id r hfind hcons h1
    have hih := ih (fun t' ht' => hts t' (by simp [ht']))
    simp [redeemMany, hred, hih]

/-- C1: a valid issuance (positive lifetime, registered command, fresh
id, any argument list) succeeds; the first `Redeem` of the returned id
(within the lifetime) succeeds and appends exactly one dispatch of the
registered command with the recorded arguments; every subsequent
`Redeem` of the same id (within the lifetime) returns `AlreadyConsumed`
and leaves the state — in particular the dispatch log, hence the single
handler invocation — unchanged. -/
theorem issue_then_redeem_exactly_once (s : RMState) (registry : List String)
    (now now₂ : Int) (id : String) (lt : Int) (cmd : String) (args : List String)
    (ts : List Int)
    (hlt : 0 < lt) (hfresh : findReceipt s.store id = none)
    (hreg : registry.contains cmd = true)
    (hnow₂ : now₂ ≤ now + lt)
    (hts : ∀ t ∈ ts, t ≤ now + lt) :
    ∃ s₁ s₂,
      IssueReceipt s now id lt cmd args = .ok (id, s₁) ∧
      Redeem registry s₁ now₂ id = (.ok, s₂) ∧
      s₂.dispatches = s.dispatches ++ [(cmd, args)] ∧
      redeemMany registry s₂ id ts
        = (ts.map (fun _ => RedeemResult.fail .AlreadyConsumed), s₂) := by
  have hne := fresh_of_findReceipt_none s.store id hfresh
  refine ⟨{ s with store := s.store ++ [Receipt.mk id cmd args now (now + lt) false] },
    RMState.mk (s.store ++ [Receipt.mk id cmd args now (now + lt) true])
      (s.dispatches ++ [(cmd, args)]), ?_, ?_, rfl, ?_⟩
  · rw [IssueReceipt, if_neg (by omega : ¬ lt ≤ 0)]
    simp [hfresh]
  · have hfind₁ : findReceipt (s.store ++ [Receipt.mk id cmd args now (now + lt) false]) id
        = some (Receipt.mk id cmd args now (now + lt) false) :=
      findReceipt_append_single s.store id _ hfresh rfl
    simp only [Redeem, hfind₁, consumeReceipt]
    rw [List.any_append, any_fresh_false s.store id hne,
      List.map_append, consume_fresh_map s.store id hne]
    have hmem : cmd ∈ registry := by simpa using hreg
    simp [hnow₂, hmem]
  · have hfind₂ : findReceipt (s.store ++ [Receipt.mk id cmd args now (now + lt) true]) id
        = some (Receipt.mk id cmd args now (now + lt) true) :=
      findReceipt_append_single s.store id _ hfresh rfl
    exact redeemMany_consumed registry _ id _ ts hfind₂ rfl hts

/-- Witness for C1: a concrete issuance redeems once with a single
dispatch; two further redemption attempts both answer
`AlreadyConsumed`. -/
theorem issue_then_redeem_exactly_once_witness :
    ∃ s₁ s₂,
      IssueReceipt (RMState.mk [] []) 0 "tok" 60 "verify-email" ["alice", "a@b.c"]
        = .ok ("tok", s₁) ∧
      Redeem ["verify-email"] s₁ 1 "tok" = (.ok, s₂) ∧
      s₂.dispatches = [] ++ [("verify-email", ["alice", "a@b.c"])] ∧
      redeemMany ["verify-email"] s₂ "tok" [2, 3]
        = ([2, 3].map (fun _ => RedeemResult.fail .AlreadyConsumed), s₂) :=
  issue_then_redeem_exactly_once (RMState.mk [] []) ["verify-email"] 0 1 "tok"
    60 "verify-email" ["alice", "a@b.c"] [2, 3]
    (by decide) (by decide) (by decide) (by decide) (by decide)

/-! ### Concurrent redemption (C2) -/

/-- Whether an in-flight `Redeem` call has finished. -/
def RedeemPhase.isDone : RedeemPhase → Bool
  | .done _ => true
  | _ => false

/-- After the conditional consume, the receipt found for the id is the
fetched one with its consumed flag set. -/
theorem findReceipt_consume (store : List Receipt) (id : String) (r : Receipt)
    (h : findReceipt store id = some r) (hc : r.consumed = false) :
    findReceipt (consumeReceipt store id).2 id = some { r with consumed := true } := by
  rw [findReceipt] at h
  have hid0 := List.find?_some h
  have hid : decide (r.id = id) = true := hid0
  have hpf : ((fun x : Receipt => decide (x.id = id)) ∘
      (fun x => if x.id = id && !x.consumed then { x with consumed := true } else x))
      = (fun x : Receipt => decide (x.id = id)) := by
    funext x
    by_cases hx : (decide (x.id = id) && !x.consumed) = true
    · rw [Function.comp_apply, if_pos hx]
    · rw [Function.comp_apply, if_neg hx]
  have hcond : (decide (r.id = id) && !r.consumed) = true := by
    rw [hc]
    simp [hid]
  rw [findReceipt, consumeReceipt, List.find?_map, hpf, h, Option.map_some']
  congr 1
  rw [if_pos hcond]

/-- A second conditional consume of the same id finds no unconsumed
row: it loses the race. -/
theorem consume_consume_lost (store : List Receipt) (id : String) :
    (consumeReceipt (consumeReceipt store id).2 id).1 = false := by
  rw [consumeReceipt, consumeReceipt, List.any_map, List.any_eq_false]
  intro r _
  by_cases hx : (decide (r.id = id) && !r.consumed) = true
  · rw [Function.comp_apply, if_pos hx]
    simp
  · rw [Function.comp_apply, if_neg hx]
    simpa using hx

/-- A second conditional consume of the same id leaves the store as the
first one left it. -/
theorem consume_consume_store (store : List Receipt) (id : String) :
    (consumeReceipt (consumeReceipt store id).2 id).2 = (consumeReceipt store id).2 := by
  rw [consumeReceipt, consumeReceipt, List.map_map]
  apply List.map_congr_left
  intro r _
  by_cases hx : (decide (r.id = id) && !r.consumed) = true
  · rw [Function.comp_apply, if_pos hx, if_neg (by simp)]
  · rw [Function.comp_apply, if_neg hx, if_neg hx]

/-- The first conditional consume of a live unconsumed receipt wins. -/
theorem consume_live_won (store : List Receipt) (id : String) (r : Receipt)
    (h : findReceipt store id = some r) (hc : r.consumed = false) :
    (consumeReceipt store id).1 = true := by
  rw [findReceipt] at h
  have hid0 := List.find?_some h
  have hid : decide (r.id = id) = true := hid0
  rw [consumeReceipt, List.any_eq_true]
  refine ⟨r, List.mem_of_find?_eq_some h, ?_⟩
  rw [hc]
  simp [hid]

/-- `countP` accounting across a single in-place update. -/
theorem countP_set_add {α : Type} (l : List α) (i : Nat) (a b : α) (p : α → Bool)
    (h : l.get? i = some b) :
    (l.set i a).countP p + (if p b then 1 else 0)
      = l.countP p + (if p a then 1 else 0) := by
  induction l generalizing i with
  | nil => simp at h
  | cons x xs ih =>
    cases i with
    | zero =>
      simp only [List.get?] at h
      cases h
      simp only [List.set, List.countP_cons]
      omega
    | succ j =>
      simp only [List.get?] at h
      simp only [List.set, List.countP_cons]
      have := ih j h
      omega

/-- The invariant of the interleaved redemption run over a live
unconsumed receipt `r₀` found under `id` in `store₀`: either nobody has
consumed yet — the global state is untouched and every thread is before
its consume attempt — or the receipt has been consumed: the store shows
the consumed row, exactly one dispatch was appended, exactly one thread
finished successfully, and every thread is pre-consume or finished with
`ok` or `AlreadyConsumed`. -/
def C2Inv (id : String) (store₀ : List Receipt)
    (d₀ : List (String × List String)) (r₀ : Receipt)
    (s : RMState × List RedeemPhase) : Prop :=
  (s.1.store = store₀ ∧ s.1.dispatches = d₀ ∧
     ∀ ph ∈ s.2, ph = RedeemPhase.start ∨ ph = RedeemPhase.fetched r₀)
  ∨
  (s.1.store = (consumeReceipt store₀ id).2 ∧
   s.1.dispatches = d₀ ++ [(r₀.command, r₀.arguments)] ∧
   List.countP (fun ph => decide (ph = RedeemPhase.done .ok)) s.2 = 1 ∧
   ∀ ph ∈ s.2, ph = RedeemPhase.start ∨ ph = RedeemPhase.fetched r₀ ∨
     ph = RedeemPhase.done .ok ∨ ph = RedeemPhase.done (.fail .AlreadyConsumed))

/-- Unfolding a scheduled step at an index holding phase `ph`. -/
theorem runStep_eq (registry : List String) (now : Int) (id : String)
    (s : RMState × List RedeemPhase) (t : Nat) (ph : RedeemPhase)
    (hget : s.2.get? t = some ph) :
    runStep registry now id s t
      = ((redeemStep registry now id s.1 ph).1,
         s.2.set t (redeemStep registry now id s.1 ph).2) := by
  rw [runStep, hget]

/-- One scheduled step preserves the redemption invariant. -/
theorem C2Inv_step (registry : List String) (now : Int) (id : String)
    (store₀ : List Receipt) (d₀ : List (String × List String)) (r₀ : Receipt)
    (h₁ : findReceipt store₀ id = some r₀) (h₂ : r₀.consumed = false)
    (h₃ : ¬ now > r₀.expiresAt) (h₄ : registry.contains r₀.command = true)
    (s : RMState × List RedeemPhase) (t : Nat)
    (hinv : C2Inv id store₀ d₀ r₀ s) :
    C2Inv id store₀ d₀ r₀ (runStep registry now id s t) := by
  cases hget : s.2.get? t with
  | none =>
    rw [runStep, hget]
    exact hinv
  | some ph =>
    rw [runStep_eq registry now id s t ph hget]
    have hmem : ph ∈ s.2 := List.get?_mem hget
    rcases hinv with ⟨hst, hd, hall⟩ | ⟨hst, hd, hcount, hall⟩
    · rcases hall ph hmem with hph | hph
      · subst hph
        have hstep : redeemStep registry now id s.1 .start = (s.1, .fetched r₀) := by
          rw [redeemStep, hst, h₁]
          simp [h₃, h₂]
        rw [hstep]
        refine Or.inl ⟨hst, hd, ?_⟩
        intro ph' hph'
        rcases List.mem_or_eq_of_mem_set hph' with hin | hnew
        · exact hall ph' hin
        · exact Or.inr hnew
      · subst hph
        have hwon : (consumeReceipt store₀ id).1 = true :=
          consume_live_won store₀ id r₀ h₁ h₂
        have hstep : redeemStep registry now id s.1 (.fetched r₀)
            = (RMState.mk (consumeReceipt store₀ id).2
                 (s.1.dispatches ++ [(r₀.command, r₀.arguments)]), .done .ok) := by
          rw [redeemStep, hst,
            show consumeReceipt store₀ id
              = ((consumeReceipt store₀ id).1, (consumeReceipt store₀ id).2) from rfl,
            hwon]
          simp [show r₀.command ∈ registry from by simpa using h₄]
        rw [hstep]
        refine Or.inr ⟨rfl, by rw [hd], ?_, ?_⟩
        · have hzero : List.countP (fun q => decide (q = RedeemPhase.done .ok)) s.2 = 0 := by
            rw [List.countP_eq_zero]
            intro a ha
            rcases hall a ha with h | h <;> simp [h]
          have hadd := countP_set_add s.2 t (RedeemPhase.done .ok) (RedeemPhase.fetched r₀)
            (fun q => decide (q = RedeemPhase.done .ok)) hget
          simp only [hzero] at hadd
          simpa using hadd
        · intro q hq
          rcases List.mem_or_eq_of_mem_set hq with hin | hnew
          · rcases hall q hin with h | h
            · exact Or.inl h
            · exact Or.inr (Or.inl h)
          · exact Or.inr (Or.inr (Or.inl hnew))
    · rcases hall ph hmem with hph | hph | hph | hph
      all_goals subst hph
      · have hfind : findReceipt s.1.store id = some { r₀ with consumed := true } := by
          rw [hst]
          exact findReceipt_consume store₀ id r₀ h₁ h₂
        have hstep : redeemStep registry now id s.1 .start
            = (s.1, .done (.fail .AlreadyConsumed)) := by
          rw [redeemStep, hfind]
          simp [h₃]
        rw [hstep]
        refine Or.inr ⟨hst, hd, ?_, ?_⟩
        · have hadd := countP_set_add s.2 t (RedeemPhase.done (.fail .AlreadyConsumed))
            RedeemPhase.start (fun q => decide (q = RedeemPhase.done .ok)) hget
          simp only [hcount] at hadd
          simpa using hadd
        · intro q hq
          rcases List.mem_or_eq_of_mem_set hq with hin | hnew
          · exact hall q hin
          · exact Or.inr (Or.inr (Or.inr hnew))
      · have hlost : (consumeReceipt s.1.store id).1 = false := by
          rw [hst]
          exact consume_consume_lost store₀ id
        have hstep : redeemStep registry now id s.1 (.fetched r₀)
            = (s.1, .done (.fail .AlreadyConsumed)) := by
          rw [redeemStep,
            show consumeReceipt s.1.store id
              = ((consumeReceipt s.1.store id).1, (consumeReceipt s.1.store id).2) from rfl,
            hlost]
          simp
        rw [hstep]
        refine Or.inr ⟨hst, hd, ?_, ?_⟩
        · have hadd := countP_set_add s.2 t (RedeemPhase.done (.fail .AlreadyConsumed))
            (RedeemPhase.fetched r₀) (fun q => decide (q = RedeemPhase.done .ok)) hget
          simp only [hcount] at hadd
          simpa using hadd
        · intro q hq
          rcases List.mem_or_eq_of_mem_set hq with hin | hnew
          · exact hall q hin
          · exact Or.inr (Or.inr (Or.inr hnew))
      · have hstep : redeemStep registry now id s.1 (.done .ok)
            = (s.1, .done .ok) := rfl
        rw [hstep]
        refine Or.inr ⟨hst, hd, ?_, ?_⟩
        · have hadd := countP_set_add s.2 t (RedeemPhase.done .ok)
            (RedeemPhase.done .ok) (fun q => decide (q = RedeemPhase.done .ok)) hget
          simp only [hcount] at hadd
          simpa using hadd
        · intro q hq
          rcases List.mem_or_eq_of_mem_set hq with hin | hnew
          · exact hall q hin
          · exact Or.inr (Or.inr (Or.inl hnew))
      · have hstep : redeemStep registry now id s.1 (.done (.fail .AlreadyConsumed))
            = (s.1, .done (.fail .AlreadyConsumed)) := rfl
        rw [hstep]
        refine Or.inr ⟨hst, hd, ?_, ?_⟩
        · have hadd := countP_set_add s.2 t (RedeemPhase.done (.fail .AlreadyConsumed))
            (RedeemPhase.done (.fail .AlreadyConsumed))
            (fun q => decide (q = RedeemPhase.done .ok)) hget
          simp only [hcount] at hadd
          simpa using hadd
        · intro q hq
          rcases List.mem_or_eq_of_mem_set hq with hin | hnew
          · exact hall q hin
          · exact Or.inr (Or.inr (Or.inr hnew))

/-- Two pointwise exclusive and exhaustive predicates split the length
of a list between their counts. -/
theorem countP_disjoint_partition {α : Type} (l : List α) (p q : α → Bool)
    (h : ∀ a ∈ l, (p a = true ∧ q a = false) ∨ (p a = false ∧ q a = true)) :
    l.countP p + l.countP q = l.length := by
  induction l with
  | nil => simp
  | cons x xs ih =>
    have hx := h x (by simp)
    have hxs := ih (fun a ha => h a (by simp [ha]))
    rcases hx with ⟨hp, hq⟩ | ⟨hp, hq⟩ <;>
      · simp [List.countP_cons, hp, hq]
        omega

/-- The invariant holds along any whole schedule. -/
theorem C2Inv_run (registry : List String) (now : Int) (id : String)
    (store₀ : List Receipt) (d₀ : List (String × List String)) (r₀ : Receipt)
    (h₁ : findReceipt store₀ id = some r₀) (h₂ : r₀.consumed = false)
    (h₃ : ¬ now > r₀.expiresAt) (h₄ : registry.contains r₀.command = true)
    (s : RMState × List RedeemPhase) (sched : List Nat)
    (hinv : C2Inv id store₀ d₀ r₀ s) :
    C2Inv id store₀ d₀ r₀ (runSchedule registry now id s sched) := by
  induction sched generalizing s with
  | nil => exact hinv
  | cons t sched ih =>
    rw [runSchedule, List.foldl_cons]
    exact ih (runStep registry now id s t)
      (C2Inv_step registry now id store₀ d₀ r₀ h₁ h₂ h₃ h₄ s t hinv)

/-- A scheduled step does not change the number of threads. -/
theorem runStep_length (registry : List String) (now : Int) (id : String)
    (s : RMState × List RedeemPhase) (t : Nat) :
    (runStep registry now id s t).2.length = s.2.length := by
  cases hget : s.2.get? t with
  | none => rw [runStep, hget]
  | some ph =>
    rw [runStep_eq registry now id s t ph hget]
    exact List.length_set s.2 t _

/-- A whole schedule does not change the number of threads. -/
theorem runSchedule_length (registry : List String) (now : Int) (id : String)
    (s : RMState × List RedeemPhase) (sched : List Nat) :
    (runSchedule registry now id s sched).2.length = s.2.length := by
  induction sched generalizing s with
  | nil => rfl
  | cons t sched ih =>
    rw [runSchedule, List.foldl_cons]
    rw [show List.foldl (runStep registry now id) (runStep registry now id s t) sched
        = runSchedule registry now id (runStep registry now id s t) sched from rfl]
    rw [ih (runStep registry now id s t)]
    exact runStep_length registry now id s t

/-- C2: for a freshly issued (live, unconsumed, registered) receipt and
`n ≥ 2` simultaneous `Redeem` calls on its id, under every interleaving
of their atomic steps that runs all calls to completion, exactly one
call succeeds, the other `n - 1` observe `AlreadyConsumed`, and the
command handler is dispatched exactly once. -/
theorem concurrent_redeem_single_winner
    (registry : List String) (now : Int) (id : String)
    (store₀ : List Receipt) (d₀ : List (String × List String)) (r₀ : Receipt)
    (n : Nat) (sched : List Nat)
    (h₁ : findReceipt store₀ id = some r₀) (h₂ : r₀.consumed = false)
    (h₃ : ¬ now > r₀.expiresAt) (h₄ : registry.contains r₀.command = true)
    (hn : 2 ≤ n)
    (hdone : (runSchedule registry now id (RMState.mk store₀ d₀,
        List.replicate n .start) sched).2.all RedeemPhase.isDone = true) :
    List.countP (fun q => decide (q = RedeemPhase.done .ok))
        (runSchedule registry now id (RMState.mk store₀ d₀,
          List.replicate n .start) sched).2 = 1 ∧
    List.countP (fun q => decide (q = RedeemPhase.done (.fail .AlreadyConsumed)))
        (runSchedule registry now id (RMState.mk store₀ d₀,
          List.replicate n .start) sched).2 = n - 1 ∧
    (∀ ph ∈ (runSchedule registry now id (RMState.mk store₀ d₀,
        List.replicate n .start) sched).2,
       ph = RedeemPhase.done .ok ∨ ph = RedeemPhase.done (.fail .AlreadyConsumed)) ∧
    (runSchedule registry now id (RMState.mk store₀ d₀,
        List.replicate n .start) sched).1.dispatches
      = d₀ ++ [(r₀.command, r₀.arguments)] := by
  have hinv₀ : C2Inv id store₀ d₀ r₀ (RMState.mk store₀ d₀, List.replicate n .start) :=
    Or.inl ⟨rfl, rfl, fun ph hph => Or.inl (List.eq_of_mem_replicate hph)⟩
  have hinv := C2Inv_run registry now id store₀ d₀ r₀ h₁ h₂ h₃ h₄
    (RMState.mk store₀ d₀, List.replicate n .start) sched hinv₀
  have hlen : (runSchedule registry now id (RMState.mk store₀ d₀,
      List.replicate n .start) sched).2.length = n := by
    rw [runSchedule_length]
    exact List.length_replicate n _
  have hdone' : ∀ ph ∈ (runSchedule registry now id (RMState.mk store₀ d₀,
      List.replicate n .start) sched).2, RedeemPhase.isDone ph = true :=
    List.all_eq_true.mp hdone
  rcases hinv with ⟨hst, hd, hall⟩ | ⟨hst, hd, hcount, hall⟩
  · exfalso
    have hne : (runSchedule registry now id (RMState.mk store₀ d₀,
        List.replicate n .start) sched).2 ≠ [] := by
      intro h
      rw [h] at hlen
      simp at hlen
      omega
    obtain ⟨ph, hph⟩ := List.exists_mem_of_ne_nil _ hne
    rcases hall ph hph with h | h <;>
      · subst h
        have hcontra := hdone' _ hph
        simp [RedeemPhase.isDone] at hcontra
  · have hmem : ∀ ph ∈ (runSchedule registry now id (RMState.mk store₀ d₀,
        List.replicate n .start) sched).2,
        ph = RedeemPhase.done .ok ∨ ph = RedeemPhase.done (.fail .AlreadyConsumed) := by
      intro ph hph
      rcases hall ph hph with h | h | h | h
      · exfalso
        subst h
        have hcontra := hdone' _ hph
        simp [RedeemPhase.isDone] at hcontra
      · exfalso
        subst h
        have hcontra := hdone' _ hph
        simp [RedeemPhase.isDone] at hcontra
      · exact Or.inl h
      · exact Or.inr h
    refine ⟨hcount, ?_, hmem, hd⟩
    have hpart : List.countP (fun q => decide (q = RedeemPhase.done .ok))
          (runSchedule registry now id (RMState.mk store₀ d₀,
            List.replicate n .start) sched).2
        + List.countP (fun q => decide (q = RedeemPhase.done (.fail .AlreadyConsumed)))
          (runSchedule registry now id (RMState.mk store₀ d₀,
            List.replicate n .start) sched).2
        = (runSchedule registry now id (RMState.mk store₀ d₀,
            List.replicate n .start) sched).2.length := by
      apply countP_disjoint_partition
      intro q hq
      rcases hmem q hq with h | h
      · subst h
        exact Or.inl ⟨by simp, by simp⟩
      · subst h
        exact Or.inr ⟨by simp, by simp⟩
    omega

/-- Witness for C2: two threads redeeming the fresh receipt `"i"` under
the schedule fetch-fetch-consume-consume finish with exactly one
success, one `AlreadyConsumed`, and a single dispatch. -/
theorem concurrent_redeem_single_winner_witness :
    List.countP (fun q => decide (q = RedeemPhase.done .ok))
        (runSchedule ["cmd"] 0 "i"
          (RMState.mk [Receipt.mk "i" "cmd" ["x"] 0 5 false] [],
            List.replicate 2 .start) [0, 1, 0, 1]).2 = 1 ∧
    List.countP (fun q => decide (q = RedeemPhase.done (.fail .AlreadyConsumed)))
        (runSchedule ["cmd"] 0 "i"
          (RMState.mk [Receipt.mk "i" "cmd" ["x"] 0 5 false] [],
            List.replicate 2 .start) [0, 1, 0, 1]).2 = 2 - 1 ∧
    (∀ ph ∈ (runSchedule ["cmd"] 0 "i"
        (RMState.mk [Receipt.mk "i" "cmd" ["x"] 0 5 false] [],
          List.replicate 2 .start) [0, 1, 0, 1]).2,
       ph = RedeemPhase.done .ok ∨ ph = RedeemPhase.done (.fail .AlreadyConsumed)) ∧
    (runSchedule ["cmd"] 0 "i"
        (RMState.mk [Receipt.mk "i" "cmd" ["x"] 0 5 false] [],
          List.replicate 2 .start) [0, 1, 0, 1]).1.dispatches
      = [] ++ [("cmd", ["x"])] :=
  concurrent_redeem_single_winner ["cmd"] 0 "i"
    [Receipt.mk "i" "cmd" ["x"] 0 5 false] [] (Receipt.mk "i" "cmd" ["x"] 0 5 false)
    2 [0, 1, 0, 1]
    (by decide) (by decide) (by decide) (by decide) (by decide) (by decide)

end Gitus